import Mathlib

/-!
Verification of the conohav3 libdns provider.

Shallow embedding of the package: the raw ConoHa record shape, the
libdns-side record variants, the bidirectional translator
(`convertToLibdnsRecord` / `convertToConohaDNSRecord`), the DNS-service
client primitives (`getRecordID`, `updateRecord` payload construction,
the HTTP status gates of both `do` helpers) and the provider façade
loops (`GetRecords`, `SetRecords`, `DeleteRecords`).

The external collaborators (libdns record abstraction, `net/netip` IP
parsing, HTTP transport) are modelled by explicit data: records as a
closed sum type, an HTTP response as a status/header/body triple, and
the remote DNS service as a record of response functions; the provider
code itself is translated statement by statement.
-/

namespace Conohav3

/-- Errors produced by the package.  `errRecordNotFound` and
`errRecordNotSupported` are the two sentinel errors declared in the
source; the remaining constructors carry the data of the `fmt.Errorf`
errors built at each failure site. -/
inductive DnsError where
  /-- Source: `var errRecordNotFound = errors.New("Record not found")` -/
  | errRecordNotFound : DnsError
  /-- Source: `var errRecordNotSupported = errors.New("Record Type is not supported")` -/
  | errRecordNotSupported : DnsError
  /-- error returned by `netip.ParseAddr` on an unparseable address string -/
  | errIPParse (data : String) : DnsError
  /-- Source: `fmt.Errorf("no such domain: %s", domainName)` -/
  | errNoSuchDomain (domainName : String) : DnsError
  /-- dnsClient.do: `fmt.Errorf("got error status: HTTP %d\nResponse body: %s", ...)` -/
  | errHTTPStatus (status : Nat) (body : String) : DnsError
  /-- identifier.do: `fmt.Errorf("got invalid status: HTTP %d", ...)` -/
  | errInvalidStatus (status : Nat) : DnsError
  /-- identifier.do: `fmt.Errorf("x-subject-token header is missing in response")` -/
  | errMissingTokenHeader : DnsError
  /-- any other error (transport, JSON decode, ...) threaded through -/
  | errOther (msg : String) : DnsError
deriving DecidableEq, Repr

deriving instance DecidableEq for Except

/-- The raw ConoHa wire record (`conohaDNSRecord`): uuid, name, type,
data and TTL in seconds.  The Go field `Type` is rendered `rType`
because `type` is reserved in Lean. -/
structure ConohaDNSRecord where
  uuid : String
  name : String
  rType : String
  data : String
  ttl : Int
deriving DecidableEq, Repr

/-- Modelled from the spec: the external `netip.Addr` collaborator.  An
address is identified by its textual form together with its family bit
(`isV4` true for an IPv4 address, driving the `A`/`AAAA` record type);
`text` is the output of the address's `String()` method. -/
structure IPAddr where
  text : String
  isV4 : Bool
deriving DecidableEq, Repr

/-- Splits a character list on dots (helper for the IPv4 textual
form). -/
def splitDots : List Char → List (List Char)
  | [] => [[]]
  | c :: rest =>
      if c = '.' then [] :: splitDots rest
      else
        match splitDots rest with
        | [] => [[c]]
        | p :: ps => (c :: p) :: ps

/-- Decimal value of a digit list (helper for the IPv4 textual form). -/
def digitsVal (p : List Char) : Nat :=
  p.foldl (fun acc c => acc * 10 + (c.toNat - 48)) 0

/-- Modelled from the spec: textual IPv4 form accepted by the external
parser — a dotted quad of four decimal components, each at most 255
(and never containing a colon). -/
def validIPv4 (s : String) : Bool :=
  !(s.toList.contains ':') &&
    (let parts := splitDots s.toList
     parts.length == 4 &&
       parts.all (fun p => !p.isEmpty && p.all Char.isDigit && digitsVal p ≤ 255))

/-- Modelled from the spec: textual IPv6 form accepted by the external
parser — contains a colon and is built from hex digits and colons. -/
def validIPv6 (s : String) : Bool :=
  s.toList.contains ':' &&
    s.toList.all (fun c => c.isDigit || ('a' ≤ c && c ≤ 'f') || c == ':')

/-- Modelled from the spec: `netip.ParseAddr`.  Parses the textual form
into an address, choosing the family by the presence of a colon;
returns `none` on an unparseable string. -/
def parseAddr (s : String) : Option IPAddr :=
  if s.toList.contains ':' then
    if validIPv6 s then some ⟨s, false⟩ else none
  else
    if validIPv4 s then some ⟨s, true⟩ else none

/-- An `IPAddr` obtained from the external library is well formed: its
textual form re-parses in its own family. -/
def wfIPAddr (a : IPAddr) : Bool :=
  if a.isV4 then validIPv4 a.text else validIPv6 a.text

/-- The libdns-side record abstraction, as the provider consumes it: a
closed sum of the variants the translator dispatches on
(`libdns.Address`, `libdns.CNAME`, `libdns.TXT`), plus `other` for any
record whose parsed form is none of the three (the translator's
`default` arm).  `ttl` is the record's TTL in whole seconds
(`int(r.TTL.Seconds())` applied once at the boundary). -/
inductive LibdnsRecord where
  | address (name : String) (ttl : Int) (ip : IPAddr) : LibdnsRecord
  | cname (name : String) (ttl : Int) (target : String) : LibdnsRecord
  | txt (name : String) (ttl : Int) (text : String) : LibdnsRecord
  | other (name : String) (ttl : Int) (rType : String) (data : String) : LibdnsRecord
deriving DecidableEq, Repr

/-- The libdns RR type string of a record (`rec.RR().Type`): for an
address it is `A` or `AAAA` per IP family. -/
def LibdnsRecord.rrType : LibdnsRecord → String
  | .address _ _ ip => if ip.isV4 then "A" else "AAAA"
  | .cname _ _ _ => "CNAME"
  | .txt _ _ _ => "TXT"
  | .other _ _ t _ => t

/-- Embedding of `convertToLibdnsRecord`: converts a raw API record to a libdns
record.  `A`/`AAAA` parse the data as an IP address (a parse failure is
returned as the parse error), `CNAME` and `TXT` carry the data through,
and any other type yields `errRecordNotSupported`. -/
def convertToLibdnsRecord (rec : ConohaDNSRecord) : Except DnsError LibdnsRecord :=
  let ttl := rec.ttl
  if rec.rType = "A" ∨ rec.rType = "AAAA" then
    match parseAddr rec.data with
    | none => .error (.errIPParse rec.data)
    | some ip => .ok (.address rec.name ttl ip)
  else if rec.rType = "CNAME" then
    .ok (.cname rec.name ttl rec.data)
  else if rec.rType = "TXT" then
    .ok (.txt rec.name ttl rec.data)
  else
    .error .errRecordNotSupported

/-- Embedding of `convertToConohaDNSRecord`: converts a libdns record into the raw
ConoHa shape.  The three supported variants map name, type-specific
data (`r.IP.String()`, target, text) and TTL in seconds; the default
arm yields `errRecordNotSupported`. -/
def convertToConohaDNSRecord (rec : LibdnsRecord) : Except DnsError ConohaDNSRecord :=
  match rec with
  | .address name ttl ip =>
      .ok { uuid := "", name := name, rType := rec.rrType, data := ip.text, ttl := ttl }
  | .cname name ttl target =>
      .ok { uuid := "", name := name, rType := rec.rrType, data := target, ttl := ttl }
  | .txt name ttl text =>
      .ok { uuid := "", name := name, rType := rec.rrType, data := text, ttl := ttl }
  | .other _ _ _ _ => .error .errRecordNotSupported

/-! ## HTTP layer -/

/-- An HTTP response as the two `do` helpers observe it: status code,
the `x-subject-token` header value (empty string when the header is
absent, matching `Header.Get`), and the body text. -/
structure HTTPResponse where
  statusCode : Nat
  xSubjectToken : String
  body : String
deriving DecidableEq, Repr

/-- Embedding of `identifier.do`: returns the token from the `x-subject-token`
header.  Any status other than 201 Created is an error carrying the
observed status; on 201, an empty header value is an error; otherwise
the header value is the token. -/
def identifierDo (resp : HTTPResponse) : Except DnsError String :=
  if resp.statusCode ≠ 201 then
    .error (.errInvalidStatus resp.statusCode)
  else if resp.xSubjectToken = "" then
    .error .errMissingTokenHeader
  else
    .ok resp.xSubjectToken

/-- Embedding of `dnsClient.do`, status gate and decode: any status other than
200 OK and 204 No Content is an error carrying the status code and the
raw body text; otherwise the provided decoder is applied to the body
(`none` models the `result == nil` calls that skip decoding). -/
def dnsClientDo (resp : HTTPResponse) (decode : Option (String → Except DnsError α)) :
    Except DnsError (Option α) :=
  if resp.statusCode ≠ 200 ∧ resp.statusCode ≠ 204 then
    .error (.errHTTPStatus resp.statusCode resp.body)
  else
    match decode with
    | none => .ok none
    | some d => (d resp.body).map some

/-! ## DNS-service client -/

/-- Embedding of `dnsClient.getRecordID` given the listing the remote returned:
linear scan for the first record whose name and type both match,
returning its UUID; `errRecordNotFound` when no record matches.  The
listing call itself is separated out (its failures are modelled at the
façade by the abstract client below). -/
def getRecordID (records : List ConohaDNSRecord) (recordName recordType : String) :
    Except DnsError String :=
  match records with
  | [] => .error .errRecordNotFound
  | record :: rest =>
      if record.name = recordName ∧ record.rType = recordType then
        .ok record.uuid
      else
        getRecordID rest recordName recordType

/-- Embedding of `dnsClient.getDomainID` given the domain listing: linear scan for
the first domain with the given name, returning its UUID;
`errNoSuchDomain` when absent.  Domains are (uuid, name) pairs. -/
def getDomainID (domains : List (String × String)) (domainName : String) :
    Except DnsError String :=
  match domains with
  | [] => .error (.errNoSuchDomain domainName)
  | domain :: rest =>
      if domain.2 = domainName then .ok domain.1
      else getDomainID rest domainName

/-- Embedding of `dnsClient.updateRecord`, payload construction: the input record
with its TTL zeroed (`record.TTL = 0`) before serialization, the
workaround for the remote API rejecting nonzero TTL on PUT. -/
def updateRecordPayload (record : ConohaDNSRecord) : ConohaDNSRecord :=
  { record with ttl := 0 }

/-- JSON serialization of a raw record as its key/value field list:
`uuid` and `ttl` carry `omitempty`, so they are emitted only when
non-zero; `name`, `type` and `data` are always present. -/
def conohaDNSRecordJSON (record : ConohaDNSRecord) : List (String × String) :=
  (if record.uuid = "" then [] else [("uuid", record.uuid)]) ++
    [("name", record.name), ("type", record.rType), ("data", record.data)] ++
    (if record.ttl = 0 then [] else [("ttl", toString record.ttl)])

/-! ## Provider façade

The façade methods are loops over the input records, calling the DNS
client.  The client is abstracted as a record of response functions
(the remote side may answer or fail arbitrarily at each call), and each
loop additionally yields the trace of mutating API calls it issued, so
that frame properties (what was created, updated, deleted before a
failure) can be stated. -/

/-- A mutating API call issued by a façade loop. -/
inductive ApiCall where
  | create (record : ConohaDNSRecord) : ApiCall
  | update (recordID : String) (record : ConohaDNSRecord) : ApiCall
  | delete (recordID : String) : ApiCall
deriving DecidableEq, Repr

/-- The DNS-service client as the façade uses it, with the remote's
behaviour abstracted: each operation takes the domain ID and returns
whatever the remote answers.  `getRecordIDOp` stands for
`getRecordID` (listing plus scan), whose possible outcomes include
`errRecordNotFound` and any listing failure. -/
structure DnsClientOps where
  getRecordIDOp : String → String → String → Except DnsError String
  createRecordOp : String → ConohaDNSRecord → Except DnsError ConohaDNSRecord
  updateRecordOp : String → String → ConohaDNSRecord → Except DnsError ConohaDNSRecord
  deleteRecordOp : String → String → Except DnsError Unit

/-- Embedding of `GetRecords`, translation loop over the raw listing: each raw
record is converted; a conversion failing with `errRecordNotSupported`
is skipped; any other conversion failure fails the whole call; the
successfully converted records are accumulated in order. -/
def getRecordsLoop (rawRecords : List ConohaDNSRecord) :
    Except DnsError (List LibdnsRecord) :=
  match rawRecords with
  | [] => .ok []
  | record :: rest =>
      match convertToLibdnsRecord record with
      | .error e =>
          if e = .errRecordNotSupported then getRecordsLoop rest
          else .error e
      | .ok libRecord => (getRecordsLoop rest).map (fun l => libRecord :: l)

/-- Embedding of `SetRecords`, per-record loop: convert the record, resolve its ID
by name+type; on `errRecordNotFound` create it and continue; on any
other resolution error abort; on success update it by ID; a failing
create or update aborts.  Returns the trace of mutating calls issued
and `none`, or the trace up to the failure and the error. -/
def setRecordsLoop (client : DnsClientOps) (domainID : String) :
    List LibdnsRecord → List ApiCall × Option DnsError
  | [] => ([], none)
  | rec :: rest =>
      match convertToConohaDNSRecord rec with
      | .error e => ([], some e)
      | .ok converted =>
          match client.getRecordIDOp domainID converted.name converted.rType with
          | .error e =>
              if e = .errRecordNotFound then
                match client.createRecordOp domainID converted with
                | .error e2 => ([.create converted], some e2)
                | .ok _ =>
                    let (calls, err) := setRecordsLoop client domainID rest
                    (.create converted :: calls, err)
              else
                ([], some e)
          | .ok recordID =>
              match client.updateRecordOp domainID recordID converted with
              | .error e2 => ([.update recordID converted], some e2)
              | .ok _ =>
                  let (calls, err) := setRecordsLoop client domainID rest
                  (.update recordID converted :: calls, err)

/-- Embedding of `SetRecords`: runs the loop; on success returns the input list
unchanged (`return records, nil`), on failure the error. -/
def SetRecords (client : DnsClientOps) (domainID : String)
    (records : List LibdnsRecord) :
    List ApiCall × Except DnsError (List LibdnsRecord) :=
  let (calls, err) := setRecordsLoop client domainID records
  (calls, match err with
          | none => .ok records
          | some e => .error e)

/-- Embedding of `DeleteRecords`, per-record loop: convert the record, resolve its
ID by name+type — any resolution failure (including
`errRecordNotFound`) aborts — then delete by ID; a failing delete
aborts.  Returns the trace of delete calls issued and the optional
error. -/
def deleteRecordsLoop (client : DnsClientOps) (domainID : String) :
    List LibdnsRecord → List ApiCall × Option DnsError
  | [] => ([], none)
  | rec :: rest =>
      match convertToConohaDNSRecord rec with
      | .error e => ([], some e)
      | .ok converted =>
          match client.getRecordIDOp domainID converted.name converted.rType with
          | .error e => ([], some e)
          | .ok recordID =>
              match client.deleteRecordOp domainID recordID with
              | .error e => ([.delete recordID], some e)
              | .ok _ =>
                  let (calls, err) := deleteRecordsLoop client domainID rest
                  (.delete recordID :: calls, err)

/-- Embedding of `DeleteRecords`: runs the loop; on success returns the input list
unchanged, on failure the error. -/
def DeleteRecords (client : DnsClientOps) (domainID : String)
    (records : List LibdnsRecord) :
    List ApiCall × Except DnsError (List LibdnsRecord) :=
  let (calls, err) := deleteRecordsLoop client domainID records
  (calls, match err with
          | none => .ok records
          | some e => .error e)

/-! ## Auxiliary definitions for the statements and their instances -/

/-- Holds when translating the raw record either succeeds or fails with
the one error `GetRecords` skips (`errRecordNotSupported`). -/
def convSkipsOnly (rec : ConohaDNSRecord) : Bool :=
  match convertToLibdnsRecord rec with
  | .ok _ => true
  | .error e => decide (e = DnsError.errRecordNotSupported)

/-- A concrete remote for instances: resolution always reports
`errRecordNotFound`; mutations succeed. -/
def clientAllNew : DnsClientOps where
  getRecordIDOp := fun _ _ _ => .error .errRecordNotFound
  createRecordOp := fun _ record => .ok record
  updateRecordOp := fun _ _ record => .ok record
  deleteRecordOp := fun _ _ => .ok ()

/-- A concrete remote for instances: only name `a.x.` resolves (to
`uuid-a`); every other name reports `errRecordNotFound`; mutations
succeed. -/
def clientOneKnown : DnsClientOps where
  getRecordIDOp := fun _ recordName _ =>
    if recordName = "a.x." then .ok "uuid-a" else .error .errRecordNotFound
  createRecordOp := fun _ record => .ok record
  updateRecordOp := fun _ _ record => .ok record
  deleteRecordOp := fun _ _ => .ok ()

/-- Sample libdns TXT record for instances. -/
def recA : LibdnsRecord := .txt "a.x." 120 "v1"

/-- Sample libdns TXT record for instances. -/
def recB : LibdnsRecord := .txt "b.x." 120 "v2"

/-- Raw form of `recA`. -/
def rawA : ConohaDNSRecord := ⟨"", "a.x.", "TXT", "v1", 120⟩

/-- Raw form of `recB`. -/
def rawB : ConohaDNSRecord := ⟨"", "b.x.", "TXT", "v2", 120⟩

/-- Sample raw record of an unsupported type for instances. -/
def rawMX : ConohaDNSRecord := ⟨"m", "a.x.", "MX", "10 m.x.", 0⟩

/-- Sample raw A record with unparseable address data for instances. -/
def rawBadA : ConohaDNSRecord := ⟨"u", "b.x.", "A", "notanip", 300⟩

/-! ## Helper lemmas -/

theorem validIPv4_no_colon {s : String} (h : validIPv4 s = true) :
    ':' ∉ s.data := by
  unfold validIPv4 at h
  rw [Bool.and_eq_true] at h
  simpa [String.toList] using h.1

theorem validIPv6_has_colon {s : String} (h : validIPv6 s = true) :
    ':' ∈ s.data := by
  unfold validIPv6 at h
  rw [Bool.and_eq_true] at h
  simpa [String.toList] using h.1

/-- A well-formed address re-parses, to itself, from its textual
form. -/
theorem parseAddr_wf (a : IPAddr) (h : wfIPAddr a = true) :
    parseAddr a.text = some a := by
  obtain ⟨text, isV4⟩ := a
  cases isV4 with
  | true =>
      have hv4 : validIPv4 text = true := by simpa [wfIPAddr] using h
      simp [parseAddr, validIPv4_no_colon hv4, hv4]
  | false =>
      have hv6 : validIPv6 text = true := by simpa [wfIPAddr] using h
      simp [parseAddr, validIPv6_has_colon hv6, hv6]

theorem SetRecords_ok_inv {client : DnsClientOps} {domainID : String}
    {records out : List LibdnsRecord}
    (h : (SetRecords client domainID records).2 = .ok out) : out = records := by
  unfold SetRecords at h
  rcases hloop : setRecordsLoop client domainID records with ⟨calls, err⟩
  rw [hloop] at h
  cases err with
  | none => simpa using h.symm
  | some e => simp at h

theorem getRecordsLoop_all_ok (raw : List ConohaDNSRecord)
    (h : raw.all convSkipsOnly = true) :
    getRecordsLoop raw =
      .ok (raw.filterMap fun x => (convertToLibdnsRecord x).toOption) := by
  induction raw with
  | nil => rfl
  | cons r rest ih =>
      rw [List.all_cons, Bool.and_eq_true] at h
      have hrest := ih h.2
      have hr := h.1
      unfold convSkipsOnly at hr
      cases hc : convertToLibdnsRecord r with
      | ok l =>
          simp [getRecordsLoop, hc, hrest, List.filterMap_cons, Except.toOption, Except.map]
      | error e =>
          rw [hc] at hr
          have he : e = .errRecordNotSupported := of_decide_eq_true hr
          simp [getRecordsLoop, hc, he, hrest, List.filterMap_cons, Except.toOption, Except.map]

theorem getRecordsLoop_fail (pre post : List ConohaDNSRecord)
    (r : ConohaDNSRecord) (e : DnsError)
    (hpre : pre.all convSkipsOnly = true)
    (hr : convertToLibdnsRecord r = .error e)
    (hne : e ≠ .errRecordNotSupported) :
    getRecordsLoop (pre ++ r :: post) = .error e := by
  induction pre with
  | nil =>
      simp [getRecordsLoop, hr, hne]
  | cons p ps ih =>
      rw [List.all_cons, Bool.and_eq_true] at hpre
      have hrest := ih hpre.2
      have hp := hpre.1
      unfold convSkipsOnly at hp
      cases hc : convertToLibdnsRecord p with
      | ok l => simp [getRecordsLoop, hc, hrest, Except.map]
      | error e2 =>
          rw [hc] at hp
          have he2 : e2 = .errRecordNotSupported := of_decide_eq_true hp
          simp [getRecordsLoop, hc, he2, hrest]

/-! ## Claims -/

/-- C1: the update payload sent by `updateRecord` has its TTL forced to
zero — hence, under `omitempty`, the `ttl` field is absent from the
serialized body — while the name, type and data fields (and the uuid)
are passed through unchanged from the input record. -/
theorem updateRecord_strips_ttl (record : ConohaDNSRecord) :
    (updateRecordPayload record).ttl = 0 ∧
    (updateRecordPayload record).name = record.name ∧
    (updateRecordPayload record).rType = record.rType ∧
    (updateRecordPayload record).data = record.data ∧
    (updateRecordPayload record).uuid = record.uuid ∧
    (conohaDNSRecordJSON (updateRecordPayload record)).lookup "ttl" = none ∧
    (conohaDNSRecordJSON (updateRecordPayload record)).lookup "name" = some record.name ∧
    (conohaDNSRecordJSON (updateRecordPayload record)).lookup "type" = some record.rType ∧
    (conohaDNSRecordJSON (updateRecordPayload record)).lookup "data" = some record.data := by
  refine ⟨rfl, rfl, rfl, rfl, rfl, ?_, ?_, ?_, ?_⟩ <;>
    · unfold conohaDNSRecordJSON updateRecordPayload
      by_cases h : record.uuid = "" <;> simp [h, List.lookup]

/-- C6: `getRecordID` returns the UUID of the first record in list
order whose name and type both match exactly (first match wins, so the
result is deterministic even when several records share name+type), and
the sentinel `errRecordNotFound` when no record matches. -/
theorem getRecordID_first_match (records : List ConohaDNSRecord)
    (recordName recordType : String) :
    getRecordID records recordName recordType =
      match records.find?
          (fun r => decide (r.name = recordName ∧ r.rType = recordType)) with
      | some r => .ok r.uuid
      | none => .error .errRecordNotFound := by
  induction records with
  | nil => rfl
  | cons r rest ih =>
      by_cases h : r.name = recordName ∧ r.rType = recordType
      · simp [getRecordID, List.find?_cons, h]
      · simp [getRecordID, List.find?_cons, h, ih]

/-- C7: token acquisition succeeds with the header's token exactly when
the response status is 201 and the `x-subject-token` header is
non-empty; any other status yields the error carrying the observed
status code, and an empty/missing header yields an error even on
201. -/
theorem getToken_status_and_header (resp : HTTPResponse) (t : String) :
    (identifierDo resp = .ok t ↔
      resp.statusCode = 201 ∧ resp.xSubjectToken = t ∧ t ≠ "") ∧
    (resp.statusCode ≠ 201 →
      identifierDo resp = .error (.errInvalidStatus resp.statusCode)) ∧
    (resp.statusCode = 201 → resp.xSubjectToken = "" →
      identifierDo resp = .error .errMissingTokenHeader) := by
  refine ⟨⟨fun h => ?_, fun h => ?_⟩, fun hne => ?_, fun h1 h2 => ?_⟩
  · unfold identifierDo at h
    split_ifs at h with hs he
    have ht : resp.xSubjectToken = t := Except.ok.inj h
    exact ⟨not_not.mp hs, ht, fun h0 => he (ht.trans h0)⟩
  · obtain ⟨h1, h2, h3⟩ := h
    simp [identifierDo, h1, h2, h3]
  · simp [identifierDo, hne]
  · simp [identifierDo, h1, h2]

/-- Instance of C7 at a concrete response: status 200 is rejected with
the status in the error, and on 201 the header token is returned. -/
theorem getToken_status_and_header_instance :
    ((identifierDo ⟨200, "tok", ""⟩ = .ok "tok" ↔
        (200 : Nat) = 201 ∧ "tok" = "tok" ∧ "tok" ≠ "") ∧
      ((200 : Nat) ≠ 201 →
        identifierDo ⟨200, "tok", ""⟩ = .error (.errInvalidStatus 200)) ∧
      ((200 : Nat) = 201 → "tok" = "" →
        identifierDo ⟨200, "tok", ""⟩ = .error .errMissingTokenHeader)) :=
  getToken_status_and_header ⟨200, "tok", ""⟩ "tok"

/-- C8: a record-service call succeeds only when the response status is
exactly 200 or 204; any other status (201 included) yields the error
carrying the status code and the raw body text. -/
theorem dnsClientDo_status_gate (resp : HTTPResponse)
    (decode : Option (String → Except DnsError (List ConohaDNSRecord)))
    (v : Option (List ConohaDNSRecord)) :
    (dnsClientDo resp decode = .ok v →
      resp.statusCode = 200 ∨ resp.statusCode = 204) ∧
    (resp.statusCode ≠ 200 → resp.statusCode ≠ 204 →
      dnsClientDo resp decode = .error (.errHTTPStatus resp.statusCode resp.body)) := by
  unfold dnsClientDo
  by_cases h200 : resp.statusCode = 200
  · simp [h200]
  · by_cases h204 : resp.statusCode = 204
    · simp [h200, h204]
    · simp [h200, h204]

/-- Instance of C8 at a concrete 201 Created response: the call errors
with the status code and body even though 201 is a 2xx status. -/
theorem dnsClientDo_status_gate_instance :
    ((dnsClientDo ⟨201, "", "created"⟩
        (none : Option (String → Except DnsError (List ConohaDNSRecord))) = .ok none →
      (201 : Nat) = 200 ∨ (201 : Nat) = 204) ∧
     ((201 : Nat) ≠ 200 → (201 : Nat) ≠ 204 →
      dnsClientDo ⟨201, "", "created"⟩
        (none : Option (String → Except DnsError (List ConohaDNSRecord))) =
          .error (.errHTTPStatus 201 "created"))) :=
  dnsClientDo_status_gate ⟨201, "", "created"⟩ none none

/-- C3: for every supported variant whose TTL is a non-negative whole
number of seconds (and, for an address, whose IP is a well-formed
address value), translating to the raw shape and back reproduces the
record — name, type-specific data and TTL exactly. -/
theorem convert_roundTrip (name target text : String) (ttl : Int) (ip : IPAddr)
    (hwf : wfIPAddr ip = true) (httl : 0 ≤ ttl) :
    (convertToConohaDNSRecord (.address name ttl ip)).bind convertToLibdnsRecord =
      .ok (.address name ttl ip) ∧
    (convertToConohaDNSRecord (.cname name ttl target)).bind convertToLibdnsRecord =
      .ok (.cname name ttl target) ∧
    (convertToConohaDNSRecord (.txt name ttl text)).bind convertToLibdnsRecord =
      .ok (.txt name ttl text) := by
  refine ⟨?_, ?_, ?_⟩
  · obtain ⟨iptext, isV4⟩ := ip
    cases isV4 with
    | true =>
        have hv4 : validIPv4 iptext = true := by simpa [wfIPAddr] using hwf
        simp [convertToConohaDNSRecord, convertToLibdnsRecord, LibdnsRecord.rrType,
          Except.bind, parseAddr, validIPv4_no_colon hv4, hv4]
    | false =>
        have hv6 : validIPv6 iptext = true := by simpa [wfIPAddr] using hwf
        simp [convertToConohaDNSRecord, convertToLibdnsRecord, LibdnsRecord.rrType,
          Except.bind, parseAddr, validIPv6_has_colon hv6, hv6]
  · simp [convertToConohaDNSRecord, convertToLibdnsRecord, LibdnsRecord.rrType,
      Except.bind]
  · simp [convertToConohaDNSRecord, convertToLibdnsRecord, LibdnsRecord.rrType,
      Except.bind]

/-- Instance of C3 at a concrete name, target, text, TTL and IPv4
address. -/
theorem convert_roundTrip_instance :
    ((convertToConohaDNSRecord (.address "a.x." 300 ⟨"1.2.3.4", true⟩)).bind
        convertToLibdnsRecord = .ok (.address "a.x." 300 ⟨"1.2.3.4", true⟩) ∧
      (convertToConohaDNSRecord (.cname "a.x." 300 "t.x.")).bind
        convertToLibdnsRecord = .ok (.cname "a.x." 300 "t.x.") ∧
      (convertToConohaDNSRecord (.txt "a.x." 300 "hello")).bind
        convertToLibdnsRecord = .ok (.txt "a.x." 300 "hello")) :=
  convert_roundTrip "a.x." "t.x." "hello" 300 ⟨"1.2.3.4", true⟩ (by decide) (by decide)

/-- C9: translation rejects everything outside the supported set with
the sentinel `errRecordNotSupported`, in both directions: any generic
variant other than address, CNAME and TXT, and any raw type string
other than A, AAAA, CNAME and TXT. -/
theorem convert_unsupported (name rType data : String) (ttl : Int)
    (raw : ConohaDNSRecord)
    (hA : raw.rType ≠ "A") (hAAAA : raw.rType ≠ "AAAA")
    (hCNAME : raw.rType ≠ "CNAME") (hTXT : raw.rType ≠ "TXT") :
    convertToConohaDNSRecord (.other name ttl rType data) =
      .error .errRecordNotSupported ∧
    convertToLibdnsRecord raw = .error .errRecordNotSupported := by
  refine ⟨rfl, ?_⟩
  simp [convertToLibdnsRecord, hA, hAAAA, hCNAME, hTXT]

/-- Instance of C9 at a concrete MX raw record and a concrete
unsupported generic record. -/
theorem convert_unsupported_instance :
    (convertToConohaDNSRecord (.other "a.x." 300 "MX" "10 mail.x.") =
        .error .errRecordNotSupported ∧
      convertToLibdnsRecord ⟨"u", "a.x.", "MX", "10 mail.x.", 300⟩ =
        .error .errRecordNotSupported) :=
  convert_unsupported "a.x." "MX" "10 mail.x." 300 ⟨"u", "a.x.", "MX", "10 mail.x.", 300⟩
    (by decide) (by decide) (by decide) (by decide)

/-- C10: a raw A or AAAA record whose data does not parse as an IP
address makes `convertToLibdnsRecord` return the parse error, which is
distinct from the unsupported-type sentinel, so the `GetRecords`
translation loop fails the whole call on it instead of skipping it. -/
theorem convert_ipParse_fails_get (raw : ConohaDNSRecord)
    (rest : List ConohaDNSRecord)
    (htype : raw.rType = "A" ∨ raw.rType = "AAAA")
    (hparse : parseAddr raw.data = none) :
    convertToLibdnsRecord raw = .error (.errIPParse raw.data) ∧
    DnsError.errIPParse raw.data ≠ .errRecordNotSupported ∧
    getRecordsLoop (raw :: rest) = .error (.errIPParse raw.data) := by
  have hconv : convertToLibdnsRecord raw = .error (.errIPParse raw.data) := by
    simp [convertToLibdnsRecord, htype, hparse]
  refine ⟨hconv, by simp, ?_⟩
  simp [getRecordsLoop, hconv]

/-- Instance of C10 at a concrete malformed A record heading a listing
that also contains a well-formed TXT record. -/
theorem convert_ipParse_fails_get_instance :
    (convertToLibdnsRecord ⟨"u", "a.x.", "A", "notanip", 300⟩ =
        .error (.errIPParse "notanip") ∧
      DnsError.errIPParse "notanip" ≠ .errRecordNotSupported ∧
      getRecordsLoop [⟨"u", "a.x.", "A", "notanip", 300⟩, rawA] =
        .error (.errIPParse "notanip")) :=
  convert_ipParse_fails_get ⟨"u", "a.x.", "A", "notanip", 300⟩ [rawA]
    (Or.inl rfl) (by decide)

/-- C2: in `SetRecords`, per input record: a name+type resolution that
reports the sentinel `errRecordNotFound` is not an error — the record
is created and the loop continues; a successful resolution updates the
existing record by its ID; any other resolution error aborts the call
with that error; and a successful call returns the input list
unchanged. -/
theorem SetRecords_create_vs_update
    (client : DnsClientOps) (domainID : String) (rec : LibdnsRecord)
    (rest records out : List LibdnsRecord)
    (c created updated : ConohaDNSRecord) (recordID : String) (e : DnsError)
    (hconv : convertToConohaDNSRecord rec = .ok c) :
    (client.getRecordIDOp domainID c.name c.rType = .error .errRecordNotFound →
      client.createRecordOp domainID c = .ok created →
      setRecordsLoop client domainID (rec :: rest) =
        (.create c :: (setRecordsLoop client domainID rest).1,
         (setRecordsLoop client domainID rest).2)) ∧
    (client.getRecordIDOp domainID c.name c.rType = .ok recordID →
      client.updateRecordOp domainID recordID c = .ok updated →
      setRecordsLoop client domainID (rec :: rest) =
        (.update recordID c :: (setRecordsLoop client domainID rest).1,
         (setRecordsLoop client domainID rest).2)) ∧
    (client.getRecordIDOp domainID c.name c.rType = .error e →
      e ≠ .errRecordNotFound →
      SetRecords client domainID (rec :: rest) = ([], .error e)) ∧
    ((SetRecords client domainID records).2 = .ok out → out = records) := by
  refine ⟨fun hres hcr => ?_, fun hres hup => ?_, fun hres hne => ?_, SetRecords_ok_inv⟩
  · rcases hrest : setRecordsLoop client domainID rest with ⟨calls, err⟩
    simp [setRecordsLoop, hconv, hres, hcr, hrest]
  · rcases hrest : setRecordsLoop client domainID rest with ⟨calls, err⟩
    simp [setRecordsLoop, hconv, hres, hup, hrest]
  · simp [SetRecords, setRecordsLoop, hconv, hres, hne]

/-- Instance of C2: against a remote where nothing resolves, setting
one TXT record issues exactly one create call and returns the input
unchanged. -/
theorem SetRecords_create_vs_update_instance :
    ((clientAllNew.getRecordIDOp "dom" rawA.name rawA.rType = .error .errRecordNotFound →
      clientAllNew.createRecordOp "dom" rawA = .ok rawA →
      setRecordsLoop clientAllNew "dom" [recA] =
        (.create rawA :: (setRecordsLoop clientAllNew "dom" []).1,
         (setRecordsLoop clientAllNew "dom" []).2)) ∧
    (clientAllNew.getRecordIDOp "dom" rawA.name rawA.rType = .ok "rid" →
      clientAllNew.updateRecordOp "dom" "rid" rawA = .ok rawA →
      setRecordsLoop clientAllNew "dom" [recA] =
        (.update "rid" rawA :: (setRecordsLoop clientAllNew "dom" []).1,
         (setRecordsLoop clientAllNew "dom" []).2)) ∧
    (clientAllNew.getRecordIDOp "dom" rawA.name rawA.rType =
        .error DnsError.errRecordNotFound →
      DnsError.errRecordNotFound ≠ .errRecordNotFound →
      SetRecords clientAllNew "dom" [recA] = ([], .error DnsError.errRecordNotFound)) ∧
    ((SetRecords clientAllNew "dom" [recA]).2 = .ok [recA] → [recA] = [recA])) :=
  SetRecords_create_vs_update clientAllNew "dom" recA [] [recA] [recA]
    rawA rawA rawA "rid" .errRecordNotFound rfl

/-- C4: the `GetRecords` translation loop returns exactly the records
that translate successfully, in listing order, when every translation
either succeeds or fails with `errRecordNotSupported` (those are
skipped); a record failing with any other error fails the whole call
with that error. -/
theorem GetRecords_skip_policy (raw pre post : List ConohaDNSRecord)
    (r : ConohaDNSRecord) (e : DnsError) :
    (raw.all convSkipsOnly = true →
      getRecordsLoop raw =
        .ok (raw.filterMap fun x => (convertToLibdnsRecord x).toOption)) ∧
    (pre.all convSkipsOnly = true → convertToLibdnsRecord r = .error e →
      e ≠ .errRecordNotSupported →
      getRecordsLoop (pre ++ r :: post) = .error e) :=
  ⟨fun h => getRecordsLoop_all_ok raw h,
   fun h1 h2 h3 => getRecordsLoop_fail pre post r e h1 h2 h3⟩

/-- Instance of C4: a listing with an MX record and a TXT record
translates to just the TXT record (the MX skipped), and a listing whose
second entry is a malformed A record fails the call with the IP parse
error. -/
theorem GetRecords_skip_policy_instance :
    (([rawMX, rawA].all convSkipsOnly = true →
      getRecordsLoop [rawMX, rawA] =
        .ok ([rawMX, rawA].filterMap fun x => (convertToLibdnsRecord x).toOption)) ∧
    ([rawMX].all convSkipsOnly = true →
      convertToLibdnsRecord rawBadA = .error (.errIPParse "notanip") →
      DnsError.errIPParse "notanip" ≠ .errRecordNotSupported →
      getRecordsLoop ([rawMX] ++ rawBadA :: [rawA]) =
        .error (.errIPParse "notanip"))) :=
  GetRecords_skip_policy [rawMX, rawA] [rawMX] [rawA] rawBadA (.errIPParse "notanip")

/-- C5: in `DeleteRecords`, any record-ID resolution failure — the
sentinel `errRecordNotFound` included, since nothing tests for it —
aborts the remaining batch and surfaces the error, while the delete
calls already issued for earlier records stand (no rollback): here the
first record has been deleted and the second aborts the call. -/
theorem DeleteRecords_abort_no_rollback
    (client : DnsClientOps) (domainID : String) (rec1 rec2 : LibdnsRecord)
    (rest : List LibdnsRecord) (c1 c2 : ConohaDNSRecord)
    (recordID1 : String) (e : DnsError)
    (h1 : convertToConohaDNSRecord rec1 = .ok c1)
    (hres1 : client.getRecordIDOp domainID c1.name c1.rType = .ok recordID1)
    (hdel1 : client.deleteRecordOp domainID recordID1 = .ok ())
    (h2 : convertToConohaDNSRecord rec2 = .ok c2)
    (hres2 : client.getRecordIDOp domainID c2.name c2.rType = .error e) :
    DeleteRecords client domainID (rec1 :: rec2 :: rest) =
      ([.delete recordID1], .error e) := by
  simp [DeleteRecords, deleteRecordsLoop, h1, hres1, hdel1, h2, hres2]

/-- Instance of C5: deleting two records where only the first resolves:
the first is deleted, then the second's `errRecordNotFound` aborts the
call and is surfaced. -/
theorem DeleteRecords_abort_no_rollback_instance :
    DeleteRecords clientOneKnown "dom" [recA, recB] =
      ([.delete "uuid-a"], .error .errRecordNotFound) :=
  DeleteRecords_abort_no_rollback clientOneKnown "dom" recA recB [] rawA rawB
    "uuid-a" .errRecordNotFound rfl (by decide) rfl rfl (by decide)

end Conohav3
